import Mathlib

/-!
Verification development for the CoPER repository (CoPER_ConvE / CoPER_MINERVA).

Shallow embedding of the Python sources:
  * `qa_cpg/utils/amsgrad.py`   (AMSGradOptimizer dense/sparse updates)
  * `qa_cpg/metrics.py`         (ranking_and_hits evaluation loop)
  * `src/learn_framework.py`    (LFramework.run_train dev-eval logic, forward, make_full_batch)
  * `src/emb/fact_network.py`   (DistMult, ContextualParameterGenerator, CPG_ConvE, TripleE)

Real-valued tensor entries are modelled over the rationals; nonlinear primitives
that the claims do not depend on numerically (sqrt, sigmoid) are passed in as
explicit function parameters so that every definition stays executable.
-/

/-- np.mean of a list of rationals (sum divided by length; 0 for the empty list,
which is never hit on the paths the theorems traverse). -/
def npMean (l : List ℚ) : ℚ := l.sum / l.length

/-- Helper for chunking a list into consecutive pieces of size `k` (the slices
taken by a Python loop `for i in range(0, len(l), k)`), with explicit fuel so
that evaluation is structural. -/
def listChunkAux (k : ℕ) : ℕ → List α → List (List α)
  | 0, _ => []
  | _, [] => []
  | fuel + 1, x :: xs => (x :: xs).take k :: listChunkAux k fuel ((x :: xs).drop k)

/-- Consecutive slices `l[0:k], l[k:2k], ...` of a list, as produced by
`for i in range(0, len(l), k)` with slicing. -/
def listChunk (k : ℕ) (l : List α) : List (List α) := listChunkAux k l.length l

namespace AMSGrad

/-- Hyper-parameters of `AMSGradOptimizer` together with the two power
accumulators `beta1_power`, `beta2_power` read by `_apply_dense_shared` and
`_apply_sparse_shared`. -/
structure HyperParams where
  lr : ℚ
  beta1 : ℚ
  beta2 : ℚ
  epsilon : ℚ
  beta1_power : ℚ
  beta2_power : ℚ

/-- Optimizer state for one variable: the variable itself and its three slots
`m`, `v`, `v_hat` (created in `_create_slots`), all tensors indexed by `ι`. -/
structure SlotState (ι : Type) where
  var : ι → ℚ
  m : ι → ℚ
  v : ι → ℚ
  v_hat : ι → ℚ

/-- lr = lr_t * sqrt(1 - beta2_power) / (1 - beta1_power), as computed at the
top of `_apply_dense_shared` and `_apply_sparse_shared`. -/
def lr_t (sqrt : ℚ → ℚ) (h : HyperParams) : ℚ :=
  h.lr * sqrt (1 - h.beta2_power) / (1 - h.beta1_power)

/-- AMSGradOptimizer._apply_dense_shared (amsgrad.py lines 130-159).

The call `state_ops.assign(m, m * beta1_t)` stores `m * beta1` in the slot;
the subsequent `m_t = m + m_scaled_g` only builds a tensor, it writes nothing
back to the slot (and likewise for `v`).  `v_hat` is assigned
`tf.maximum(v_hat, v_t)` and the variable update subtracts
`lr * m_t / (sqrt(v_hat) + epsilon)`. -/
def apply_dense_shared (sqrt : ℚ → ℚ) (h : HyperParams) (grad : ι → ℚ)
    (s : SlotState ι) : SlotState ι :=
  let lr := lr_t sqrt h
  let m_scaled_g := fun i => grad i * (1 - h.beta1)
  let m_slot := fun i => s.m i * h.beta1
  let m_t := fun i => m_slot i + m_scaled_g i
  let v_scaled_g := fun i => (grad i * grad i) * (1 - h.beta2)
  let v_slot := fun i => s.v i * h.beta2
  let v_t := fun i => v_slot i + v_scaled_g i
  let v_hat := fun i => max (s.v_hat i) (v_t i)
  let v_sqrt := fun i => sqrt (v_hat i)
  { var := fun i => s.var i - lr * m_t i / (v_sqrt i + h.epsilon),
    m := m_slot, v := v_slot, v_hat := v_hat }

/-- state_ops.scatter_add: add each update value at its index (duplicate
indices accumulate); entries not mentioned keep their value. -/
def scatter_add [DecidableEq ι] (base : ι → ℚ) (upd : List (ι × ℚ)) : ι → ℚ :=
  fun i => base i + ((upd.filter fun p => decide (p.1 = i)).map Prod.snd).sum

/-- AMSGradOptimizer._apply_sparse_shared (amsgrad.py lines 161-189).

Here `scatter_add(m, indices, m_scaled_g_values)` does update the slot `m`
in place (and likewise `v`), so the sparse slots do carry the full moment
recurrences forward. -/
def apply_sparse_shared [DecidableEq ι] (sqrt : ℚ → ℚ) (h : HyperParams)
    (grad : List (ι × ℚ)) (s : SlotState ι) : SlotState ι :=
  let lr := lr_t sqrt h
  let m_scaled_g_values := grad.map fun p => (p.1, p.2 * (1 - h.beta1))
  let m_assigned := fun i => s.m i * h.beta1
  let m_t := scatter_add m_assigned m_scaled_g_values
  let v_scaled_g_values := grad.map fun p => ((p.1, (p.2 * p.2) * (1 - h.beta2)) : ι × ℚ)
  let v_assigned := fun i => s.v i * h.beta2
  let v_t := scatter_add v_assigned v_scaled_g_values
  let v_hat := fun i => max (s.v_hat i) (v_t i)
  let v_sqrt := fun i => sqrt (v_hat i)
  { var := fun i => s.var i - lr * m_t i / (v_sqrt i + h.epsilon),
    m := m_t, v := v_t, v_hat := v_hat }

end AMSGrad

namespace FactNetwork

/-! ### DistMult (fact_network.py lines 199-217), over concrete rational tensors -/

/-- Modelled from the spec: the knowledge-graph module `kg` used by the fact
networks is missing from src/ (only its callers are present); per the spec its
entities are embedding tables, so it is a pair of entity/relation embedding
matrices. -/
structure KG (numE numR dim : ℕ) where
  entity_embeddings : Fin numE → Fin dim → ℚ
  relation_embeddings : Fin numR → Fin dim → ℚ

/-- Modelled from the spec: embedding lookup of a batch of entity indices,
selecting rows of the entity embedding table. -/
def KG.get_entity_embeddings (kg : KG nE nR d) (e : Fin b → Fin nE) :
    Fin b → Fin d → ℚ :=
  fun i => kg.entity_embeddings (e i)

/-- Modelled from the spec: embedding lookup of a batch of relation indices,
selecting rows of the relation embedding table. -/
def KG.get_relation_embeddings (kg : KG nE nR d) (r : Fin b → Fin nR) :
    Fin b → Fin d → ℚ :=
  fun i => kg.relation_embeddings (r i)

/-- Modelled from the spec: the whole entity embedding table. -/
def KG.get_all_entity_embeddings (kg : KG nE nR d) : Fin nE → Fin d → ℚ :=
  kg.entity_embeddings

/-- Elementwise product of two matrices (torch `*`). -/
def hadamard (A B : Fin b → Fin d → ℚ) : Fin b → Fin d → ℚ :=
  fun i j => A i j * B i j

/-- torch.transpose(1, 0) of a matrix. -/
def transpose10 (A : Fin n → Fin d → ℚ) : Fin d → Fin n → ℚ :=
  fun j i => A i j

/-- torch.mm, matrix product. -/
def mmat (A : Fin b → Fin d → ℚ) (B : Fin d → Fin n → ℚ) : Fin b → Fin n → ℚ :=
  fun i k => ∑ j, A i j * B j k

/-- torch.sum(_, dim=1), row sums (the keepdim=True singleton dimension is
dropped in the embedding). -/
def sum_dim1 (A : Fin b → Fin d → ℚ) : Fin b → ℚ :=
  fun i => ∑ j, A i j

/-- DistMult.forward (fact_network.py lines 203-209): scores of (e1, r) against
all entities, `sigmoid(mm(E1 * R, E2^T))`. -/
def DistMult.forward (sigmoid : ℚ → ℚ) (kg : KG nE nR d)
    (e1 : Fin b → Fin nE) (r : Fin b → Fin nR) : Fin b → Fin nE → ℚ :=
  let E1 := kg.get_entity_embeddings e1
  let R := kg.get_relation_embeddings r
  let E2 := kg.get_all_entity_embeddings
  fun i j => sigmoid (mmat (hadamard E1 R) (transpose10 E2) i j)

/-- DistMult.forward_fact (fact_network.py lines 211-217): per-fact scores,
`sigmoid(sum(E1 * R * E2, dim=1))`. -/
def DistMult.forward_fact (sigmoid : ℚ → ℚ) (kg : KG nE nR d)
    (e1 : Fin b → Fin nE) (r : Fin b → Fin nR) (e2 : Fin b → Fin nE) :
    Fin b → ℚ :=
  let E1 := kg.get_entity_embeddings e1
  let R := kg.get_relation_embeddings r
  let E2 := kg.get_entity_embeddings e2
  fun i => sigmoid (sum_dim1 (hadamard (hadamard E1 R) E2) i)

end FactNetwork

namespace FactNetwork

/-! ### ContextualParameterGenerator (fact_network.py lines 228-259) -/

/-- One module of the generator's internal `nn.Sequential` network.  A
`linear` layer carries its `in_features`/`out_features` and its (arbitrary,
initializer-supplied) weight and bias entries; `batchNorm1d` carries the
per-feature transformation its parameters and running statistics realize;
`dropout` is the evaluation-mode (identity) behaviour of `nn.Dropout`. -/
inductive CPGModule
  | linear (in_features out_features : ℕ) (weight : ℕ → ℕ → ℚ)
      (bias : ℕ → ℚ) (use_bias : Bool)
  | batchNorm1d (num_features : ℕ) (g : ℕ → ℚ → ℚ)
  | relu
  | dropout (p : ℚ)

/-- Application of one module to a feature vector. -/
def CPGModule.apply : CPGModule → List ℚ → List ℚ
  | .linear inF outF w bias useB, v =>
      (List.range outF).map fun o =>
        ((List.range inF).map fun j => w o j * v.getD j 0).sum
          + (if useB then bias o else 0)
  | .batchNorm1d _ g, v => (List.range v.length).map fun j => g j (v.getD j 0)
  | .relu, v => v.map fun x => max x 0
  | .dropout _, v => v

/-- out_features of a linear module. -/
def CPGModule.outFeatures : CPGModule → Option ℕ
  | .linear _ outF _ _ _ => some outF
  | _ => none

/-- nn.Sequential application: modules applied left to right. -/
def applySequential (mods : List CPGModule) (v : List ℚ) : List ℚ :=
  mods.foldl (fun acc m => m.apply acc) v

/-- ContextualParameterGenerator.__init__'s construction loop over
`network_structure[1:]` (fact_network.py lines 240-253): for every hidden
width append Linear, optionally BatchNorm1d, then ReLU and Dropout, and close
with a Linear onto `flattened_output`.  The oracles `lw`, `lb`, `bng` supply
the freshly initialized parameters of the k-th created Linear/BatchNorm. -/
def buildProjections (use_batch_norm use_bias : Bool) (dropout : ℚ)
    (lw : ℕ → ℕ → ℕ → ℚ) (lb : ℕ → ℕ → ℚ) (bng : ℕ → ℕ → ℚ → ℚ)
    (flattened_output : ℕ) : ℕ → ℕ → List ℕ → List CPGModule
  | k, layer_input, [] =>
      [CPGModule.linear layer_input flattened_output (lw k) (lb k) use_bias]
  | k, layer_input, layer_output :: rest =>
      [CPGModule.linear layer_input layer_output (lw k) (lb k) use_bias]
        ++ (if use_batch_norm then [CPGModule.batchNorm1d layer_output (bng k)] else [])
        ++ [CPGModule.relu, CPGModule.dropout dropout]
        ++ buildProjections use_batch_norm use_bias dropout lw lb bng
            flattened_output (k + 1) layer_output rest

/-- The ContextualParameterGenerator module: configuration plus its built
`projections` list (`self.network = nn.Sequential(*self.projections)`). -/
structure ContextualParameterGenerator where
  network_structure : List ℕ
  output_shape : List ℕ
  dropout : ℚ
  use_batch_norm : Bool
  use_bias : Bool
  flattened_output : ℕ
  projections : List CPGModule

/-- ContextualParameterGenerator.__init__ (fact_network.py lines 229-253):
`flattened_output = reduce(mul, output_shape, 1)` and the projection list is
built from `network_structure[0]` through the hidden widths
`network_structure[1:]`. -/
def ContextualParameterGenerator.init (network_structure output_shape : List ℕ)
    (dropout : ℚ) (use_batch_norm use_bias : Bool)
    (lw : ℕ → ℕ → ℕ → ℚ) (lb : ℕ → ℕ → ℚ) (bng : ℕ → ℕ → ℚ → ℚ) :
    ContextualParameterGenerator :=
  { network_structure := network_structure
    output_shape := output_shape
    dropout := dropout
    use_batch_norm := use_batch_norm
    use_bias := use_bias
    flattened_output := output_shape.foldl (· * ·) 1
    projections := buildProjections use_batch_norm use_bias dropout lw lb bng
      (output_shape.foldl (· * ·) 1) 0 (network_structure.headD 0)
      network_structure.tail }

/-- tensor.view([-1] + shape) of a (flattened, row-major) batch of data:
consecutive blocks, one per leading index, each holding the
`prod shape` entries of one generated parameter block. -/
def viewNegOne (shape : List ℕ) (data : List ℚ) : List (List ℚ) :=
  listChunk (shape.foldl (· * ·) 1) data

/-- ContextualParameterGenerator.forward (fact_network.py lines 255-259):
`flat_params = self.network(query_emb)` on each row of the input batch, then
`params = flat_params.view([-1] + self.output_shape)`. -/
def ContextualParameterGenerator.forward (g : ContextualParameterGenerator)
    (query_emb : List (List ℚ)) : List (List ℚ) :=
  let flat_params := query_emb.map (applySequential g.projections)
  viewNegOne g.output_shape flat_params.flatten

end FactNetwork

namespace FactNetwork

/-! ### CPG_ConvE (fact_network.py lines 261-439), over an abstract tensor type -/

/-- Tensor primitives of torch used by CPG_ConvE, abstract over the tensor
type so that the data flow of the forward passes is the object of study. -/
structure TorchOps (τ : Type) where
  cat_dim2 : τ → τ → τ
  conv2d : τ → τ → τ → τ
  relu : τ → τ
  view : τ → List ℤ → τ
  mm : τ → τ → τ
  transpose10 : τ → τ
  matmul : τ → τ → τ
  unsqueeze : τ → ℤ → τ
  squeeze : τ → ℤ → τ
  einsum_ij_ijk_ik : τ → τ → τ
  add : τ → τ → τ
  index1 : τ → τ → τ
  expand_as : τ → τ → τ
  sigmoid : τ → τ

/-- Modelled from the spec: interface of the knowledge-graph module `kg`
(missing from src/) as CPG_ConvE consumes it — embedding lookups and the full
entity table, as abstract tensor operations. -/
structure KGView (τ : Type) where
  get_entity_embeddings : τ → τ
  get_relation_embeddings : τ → τ
  get_all_entity_embeddings : τ

/-- The CPG_ConvE module state after __init__ (fact_network.py lines 262-338):
dimensions, the two optional CPG configurations, the fixed layers
(`conv1`, `fc`, batch norms, dropouts, bias `b`) and the four contextual
parameter generators (as the functions they compute on a relation tensor). -/
structure CPG_ConvE (τ : Type) where
  entity_dim : ℕ
  relation_dim : ℕ
  emb_2D_d1 : ℕ
  emb_2D_d2 : ℕ
  num_out_channels : ℕ
  w_d : ℕ
  feat_dim : ℕ
  cpg_conv_net : Option (List ℤ)
  cpg_fc_net : Option (List ℤ)
  bn0 : τ → τ
  bn2 : τ → τ
  HiddenDropout : τ → τ
  FeatureDropout : τ → τ
  conv1 : τ → τ
  fc : τ → τ
  conv_filter : τ → τ
  conv_bias : τ → τ
  fc_weights : τ → τ
  fc_bias : τ → τ
  b : τ

/-- CPG_ConvE.__init__'s decoding of the cpg_*_net argparse lists
(fact_network.py lines 272-281): a nonempty list whose first entry is -1
stands for None. -/
def cpgNetOption (arg : List ℤ) : Option (List ℤ) :=
  if 0 < arg.length ∧ arg.getD 0 0 = -1 then none else some arg

/-- CPG_ConvE.forward (fact_network.py lines 340-391). -/
def CPG_ConvE.forward (T : TorchOps τ) (mdl : CPG_ConvE τ) (kg : KGView τ)
    (e1 r : τ) : τ :=
  let E1 := T.view (kg.get_entity_embeddings e1)
    [-1, 1, (mdl.emb_2D_d1 : ℤ), (mdl.emb_2D_d2 : ℤ)]
  let emb_2D_d2 := mdl.relation_dim / mdl.emb_2D_d1
  let R0 := T.view (kg.get_relation_embeddings r)
    [-1, 1, (mdl.emb_2D_d1 : ℤ), (emb_2D_d2 : ℤ)]
  let E2 := kg.get_all_entity_embeddings
  let SR :=
    if mdl.cpg_fc_net = none ∧ mdl.cpg_conv_net = none ∧
        mdl.entity_dim = mdl.relation_dim then
      (T.cat_dim2 E1 R0, R0)
    else
      (E1, T.view R0 [-1, (mdl.relation_dim : ℤ)])
  let R := SR.2
  let stacked_inputs := mdl.bn0 SR.1
  let X :=
    match mdl.cpg_conv_net with
    | some _ => T.conv2d stacked_inputs (mdl.conv_filter R) (mdl.conv_bias R)
    | none => mdl.conv1 stacked_inputs
  let X := T.relu X
  let X := mdl.FeatureDropout X
  let X := T.view X [-1, (mdl.feat_dim : ℤ)]
  let X :=
    match mdl.cpg_fc_net with
    | some _ =>
        let fc_weights := mdl.fc_weights R
        let fc_weights := T.view fc_weights
          [-1, (mdl.feat_dim : ℤ), (mdl.entity_dim : ℤ)]
        T.add (T.einsum_ij_ijk_ik X fc_weights) (mdl.fc_bias R)
    | none => mdl.fc X
  let X := mdl.HiddenDropout X
  let X := mdl.bn2 X
  let X := T.relu X
  let X := T.mm X (T.transpose10 E2)
  let X := T.add X (T.expand_as mdl.b X)
  T.sigmoid X

/-- CPG_ConvE.forward_fact (fact_network.py lines 393-439). -/
def CPG_ConvE.forward_fact (T : TorchOps τ) (mdl : CPG_ConvE τ) (kg : KGView τ)
    (e1 r e2 : τ) : τ :=
  let E1 := T.view (kg.get_entity_embeddings e1)
    [-1, 1, (mdl.emb_2D_d1 : ℤ), (mdl.emb_2D_d2 : ℤ)]
  let emb_2D_d2 := mdl.relation_dim / mdl.emb_2D_d1
  let R0 := T.view (kg.get_relation_embeddings r)
    [-1, 1, (mdl.emb_2D_d1 : ℤ), (emb_2D_d2 : ℤ)]
  let E2 := kg.get_entity_embeddings e2
  let SR :=
    if mdl.cpg_fc_net = none ∧ mdl.cpg_conv_net = none ∧
        mdl.relation_dim = mdl.entity_dim then
      (T.cat_dim2 E1 R0, R0)
    else
      (E1, T.view R0 [-1, (mdl.relation_dim : ℤ)])
  let R := SR.2
  let stacked_inputs := mdl.bn0 SR.1
  let X :=
    match mdl.cpg_conv_net with
    | some _ => T.conv2d stacked_inputs (mdl.conv_filter R) (mdl.conv_bias R)
    | none => mdl.conv1 stacked_inputs
  let X := T.relu X
  let X := mdl.FeatureDropout X
  let X := T.view X [-1, (mdl.feat_dim : ℤ)]
  let X :=
    match mdl.cpg_fc_net with
    | some _ =>
        let fc_weights := mdl.fc_weights R
        T.add (T.einsum_ij_ijk_ik X fc_weights) (mdl.fc_bias R)
    | none => mdl.fc X
  let X := mdl.HiddenDropout X
  let X := mdl.bn2 X
  let X := T.relu X
  let X := T.squeeze (T.matmul (T.unsqueeze X 1) (T.unsqueeze E2 2)) 2
  let X := T.add X (T.unsqueeze (T.index1 mdl.b e2) 1)
  T.sigmoid X

end FactNetwork

namespace FactNetwork

/-! ### Claim-side characterizations of the CPG_ConvE passes

Following the claim's words: in a pass where a CPG is configured, the
convolution is computed with weight `conv_filter(R)` and bias `conv_bias(R)`,
and the fully-connected transform with `fc_weights(R)` and `fc_bias(R)`,
generated from the relation embedding `R` of the batch; the fixed `conv1`/`fc`
layers take the stage only where the corresponding CPG is absent. -/

/-- Pass with both CPGs configured: convolution and fully-connected stage both
use parameters generated from the relation embedding. -/
def CPG_ConvE.forwardCPGBoth (T : TorchOps τ) (mdl : CPG_ConvE τ)
    (kg : KGView τ) (e1 r : τ) : τ :=
  let E1 := T.view (kg.get_entity_embeddings e1)
    [-1, 1, (mdl.emb_2D_d1 : ℤ), (mdl.emb_2D_d2 : ℤ)]
  let R0 := T.view (kg.get_relation_embeddings r)
    [-1, 1, (mdl.emb_2D_d1 : ℤ), ((mdl.relation_dim / mdl.emb_2D_d1 : ℕ) : ℤ)]
  let E2 := kg.get_all_entity_embeddings
  let R := T.view R0 [-1, (mdl.relation_dim : ℤ)]
  let X := T.conv2d (mdl.bn0 E1) (mdl.conv_filter R) (mdl.conv_bias R)
  let X := T.view (mdl.FeatureDropout (T.relu X)) [-1, (mdl.feat_dim : ℤ)]
  let W := T.view (mdl.fc_weights R) [-1, (mdl.feat_dim : ℤ), (mdl.entity_dim : ℤ)]
  let X := T.add (T.einsum_ij_ijk_ik X W) (mdl.fc_bias R)
  let X := T.relu (mdl.bn2 (mdl.HiddenDropout X))
  let X := T.mm X (T.transpose10 E2)
  T.sigmoid (T.add X (T.expand_as mdl.b X))

/-- Pass with only the convolution CPG configured: the convolution uses
generated parameters, the fully-connected stage is the fixed `fc` layer. -/
def CPG_ConvE.forwardCPGConvOnly (T : TorchOps τ) (mdl : CPG_ConvE τ)
    (kg : KGView τ) (e1 r : τ) : τ :=
  let E1 := T.view (kg.get_entity_embeddings e1)
    [-1, 1, (mdl.emb_2D_d1 : ℤ), (mdl.emb_2D_d2 : ℤ)]
  let R0 := T.view (kg.get_relation_embeddings r)
    [-1, 1, (mdl.emb_2D_d1 : ℤ), ((mdl.relation_dim / mdl.emb_2D_d1 : ℕ) : ℤ)]
  let E2 := kg.get_all_entity_embeddings
  let R := T.view R0 [-1, (mdl.relation_dim : ℤ)]
  let X := T.conv2d (mdl.bn0 E1) (mdl.conv_filter R) (mdl.conv_bias R)
  let X := T.view (mdl.FeatureDropout (T.relu X)) [-1, (mdl.feat_dim : ℤ)]
  let X := mdl.fc X
  let X := T.relu (mdl.bn2 (mdl.HiddenDropout X))
  let X := T.mm X (T.transpose10 E2)
  T.sigmoid (T.add X (T.expand_as mdl.b X))

/-- Pass with only the fully-connected CPG configured: the convolution is the
fixed `conv1` layer, the fully-connected stage uses generated parameters. -/
def CPG_ConvE.forwardCPGFcOnly (T : TorchOps τ) (mdl : CPG_ConvE τ)
    (kg : KGView τ) (e1 r : τ) : τ :=
  let E1 := T.view (kg.get_entity_embeddings e1)
    [-1, 1, (mdl.emb_2D_d1 : ℤ), (mdl.emb_2D_d2 : ℤ)]
  let R0 := T.view (kg.get_relation_embeddings r)
    [-1, 1, (mdl.emb_2D_d1 : ℤ), ((mdl.relation_dim / mdl.emb_2D_d1 : ℕ) : ℤ)]
  let E2 := kg.get_all_entity_embeddings
  let R := T.view R0 [-1, (mdl.relation_dim : ℤ)]
  let X := mdl.conv1 (mdl.bn0 E1)
  let X := T.view (mdl.FeatureDropout (T.relu X)) [-1, (mdl.feat_dim : ℤ)]
  let W := T.view (mdl.fc_weights R) [-1, (mdl.feat_dim : ℤ), (mdl.entity_dim : ℤ)]
  let X := T.add (T.einsum_ij_ijk_ik X W) (mdl.fc_bias R)
  let X := T.relu (mdl.bn2 (mdl.HiddenDropout X))
  let X := T.mm X (T.transpose10 E2)
  T.sigmoid (T.add X (T.expand_as mdl.b X))

/-- Per-fact pass with both CPGs configured (the generated fc weights are
used unreshaped here, as in forward_fact). -/
def CPG_ConvE.forward_factCPGBoth (T : TorchOps τ) (mdl : CPG_ConvE τ)
    (kg : KGView τ) (e1 r e2 : τ) : τ :=
  let E1 := T.view (kg.get_entity_embeddings e1)
    [-1, 1, (mdl.emb_2D_d1 : ℤ), (mdl.emb_2D_d2 : ℤ)]
  let R0 := T.view (kg.get_relation_embeddings r)
    [-1, 1, (mdl.emb_2D_d1 : ℤ), ((mdl.relation_dim / mdl.emb_2D_d1 : ℕ) : ℤ)]
  let E2 := kg.get_entity_embeddings e2
  let R := T.view R0 [-1, (mdl.relation_dim : ℤ)]
  let X := T.conv2d (mdl.bn0 E1) (mdl.conv_filter R) (mdl.conv_bias R)
  let X := T.view (mdl.FeatureDropout (T.relu X)) [-1, (mdl.feat_dim : ℤ)]
  let X := T.add (T.einsum_ij_ijk_ik X (mdl.fc_weights R)) (mdl.fc_bias R)
  let X := T.relu (mdl.bn2 (mdl.HiddenDropout X))
  let X := T.squeeze (T.matmul (T.unsqueeze X 1) (T.unsqueeze E2 2)) 2
  T.sigmoid (T.add X (T.unsqueeze (T.index1 mdl.b e2) 1))

/-- Per-fact pass with only the convolution CPG configured. -/
def CPG_ConvE.forward_factCPGConvOnly (T : TorchOps τ) (mdl : CPG_ConvE τ)
    (kg : KGView τ) (e1 r e2 : τ) : τ :=
  let E1 := T.view (kg.get_entity_embeddings e1)
    [-1, 1, (mdl.emb_2D_d1 : ℤ), (mdl.emb_2D_d2 : ℤ)]
  let R0 := T.view (kg.get_relation_embeddings r)
    [-1, 1, (mdl.emb_2D_d1 : ℤ), ((mdl.relation_dim / mdl.emb_2D_d1 : ℕ) : ℤ)]
  let E2 := kg.get_entity_embeddings e2
  let R := T.view R0 [-1, (mdl.relation_dim : ℤ)]
  let X := T.conv2d (mdl.bn0 E1) (mdl.conv_filter R) (mdl.conv_bias R)
  let X := T.view (mdl.FeatureDropout (T.relu X)) [-1, (mdl.feat_dim : ℤ)]
  let X := mdl.fc X
  let X := T.relu (mdl.bn2 (mdl.HiddenDropout X))
  let X := T.squeeze (T.matmul (T.unsqueeze X 1) (T.unsqueeze E2 2)) 2
  T.sigmoid (T.add X (T.unsqueeze (T.index1 mdl.b e2) 1))

/-- Per-fact pass with only the fully-connected CPG configured. -/
def CPG_ConvE.forward_factCPGFcOnly (T : TorchOps τ) (mdl : CPG_ConvE τ)
    (kg : KGView τ) (e1 r e2 : τ) : τ :=
  let E1 := T.view (kg.get_entity_embeddings e1)
    [-1, 1, (mdl.emb_2D_d1 : ℤ), (mdl.emb_2D_d2 : ℤ)]
  let R0 := T.view (kg.get_relation_embeddings r)
    [-1, 1, (mdl.emb_2D_d1 : ℤ), ((mdl.relation_dim / mdl.emb_2D_d1 : ℕ) : ℤ)]
  let E2 := kg.get_entity_embeddings e2
  let R := T.view R0 [-1, (mdl.relation_dim : ℤ)]
  let X := mdl.conv1 (mdl.bn0 E1)
  let X := T.view (mdl.FeatureDropout (T.relu X)) [-1, (mdl.feat_dim : ℤ)]
  let X := T.add (T.einsum_ij_ijk_ik X (mdl.fc_weights R)) (mdl.fc_bias R)
  let X := T.relu (mdl.bn2 (mdl.HiddenDropout X))
  let X := T.squeeze (T.matmul (T.unsqueeze X 1) (T.unsqueeze E2 2)) 2
  T.sigmoid (T.add X (T.unsqueeze (T.index1 mdl.b e2) 1))

end FactNetwork

namespace FactNetwork

/-! ### TripleE.forward_fact arity model (fact_network.py lines 45-50) -/

/-- Python runtime error classes that can surface on these call paths. -/
inductive PyError
  | typeError
deriving DecidableEq

/-- Calling a Python method that declares `required_arity` positional
parameters (besides self): a call whose positional-argument count differs
raises TypeError, otherwise the body runs. -/
def pyCallMethod (required_arity : ℕ) (f : List τ → σ) (args : List τ) :
    Except PyError σ :=
  if args.length = required_arity then Except.ok (f args)
  else Except.error PyError.typeError

/-- ConvE.forward_fact (fact_network.py line 165) declares the four
parameters e1, r, e2, kg. -/
def ConvE.forward_fact_arity : ℕ := 4

/-- ComplEx.forward_fact (fact_network.py line 97) declares the four
parameters e1, r, e2, kg. -/
def ComplEx.forward_fact_arity : ℕ := 4

/-- DistMult.forward_fact (fact_network.py line 211) declares the four
parameters e1, r, e2, kg. -/
def DistMult.forward_fact_arity : ℕ := 4

/-- TripleE.forward_fact (fact_network.py lines 45-50): unpack the two
secondary knowledge graphs and average the three sub-model per-fact scores —
each sub-model called with the three arguments (e1, r, its kg).  `avg3`
stands for the final `(... + ... + ...) / 3`. -/
def TripleE.forward_fact [Inhabited τ]
    (conve_nn_forward_fact complex_nn_forward_fact distmult_nn_forward_fact :
      List τ → τ)
    (avg3 : τ → τ → τ → τ) (e1 r conve_kg : τ) (secondary_kgs : List τ) :
    Except PyError τ := do
  let complex_kg := secondary_kgs.getD 0 default
  let distmult_kg := secondary_kgs.getD 1 default
  let s1 ← pyCallMethod ConvE.forward_fact_arity conve_nn_forward_fact
    [e1, r, conve_kg]
  let s2 ← pyCallMethod ComplEx.forward_fact_arity complex_nn_forward_fact
    [e1, r, complex_kg]
  let s3 ← pyCallMethod DistMult.forward_fact_arity distmult_nn_forward_fact
    [e1, r, distmult_kg]
  Except.ok (avg3 s1 s2 s3)

end FactNetwork

namespace Metrics

/-! ### ranking_and_hits (metrics.py lines 24-88) -/

/-- Score entries of the prediction matrix: a real score or -np.inf (the
masking sentinel), modelled as the bottom element. -/
abbrev Score := WithBot ℚ

/-- One batch produced by `session.run` on the evaluation iterator: the
tensors e1, e2, rel, e2_multi and the prediction matrix, with batch size `b`
over `n` entities. -/
structure EvalBatch where
  b : ℕ
  n : ℕ
  e1 : Fin b → ℕ
  rel : Fin b → ℕ
  e2 : Fin b → Fin n
  e2_multi : Fin b → Fin n → ℚ
  pred : Fin b → Fin n → Score

/-- target_values = pred[np.arange(0, len(pred)), e2] (metrics.py line 45). -/
def target_values (bt : EvalBatch) : Fin bt.b → Score :=
  fun i => bt.pred i (bt.e2 i)

/-- pred[e2_multi == 1] = -np.inf (metrics.py line 46): every entry flagged as
a known true answer is overwritten with -inf. -/
def maskKnown (bt : EvalBatch) : Fin bt.b → Fin bt.n → Score :=
  fun i j => if bt.e2_multi i j = 1 then ⊥ else bt.pred i j

/-- pred[np.arange(0, len(pred)), e2] = target_values (metrics.py line 47):
the target entity's column of each row is restored to its saved value. -/
def maskedPred (bt : EvalBatch) : Fin bt.b → Fin bt.n → Score :=
  fun i => Function.update (maskKnown bt i) (bt.e2 i) (target_values bt i)

/-- np.argsort(-pred[i]) (metrics.py line 50): entity indices ordered by
decreasing score (a deterministic model of argsort: ties are broken by
index). -/
def argsortDesc (row : Fin n → Score) : List (Fin n) :=
  (List.finRange n).mergeSort fun a b =>
    decide (row b < row a) || (decide (row a = row b) && decide (a.val ≤ b.val))

/-- rank = int(np.where(pred1_args == e2[i])[0]) + 1 (metrics.py line 51):
the 1-based position of the target entity in the descending order. -/
def rankOf (row : Fin n → Score) (tgt : Fin n) : ℕ :=
  (argsortDesc row).indexOf tgt + 1

/-- Accumulator of the evaluation loop: `count`, the rank list and, for every
level of hits_to_compute, the per-example 0/1 hit list. -/
structure Accum where
  count : ℕ
  ranks : List ℕ
  hits : List (ℕ × List ℚ)

/-- hits = {level: [] for level in hits_to_compute}, ranks = [], count = 0
(metrics.py lines 33-38). -/
def initAccum (hits_to_compute : List ℕ) : Accum :=
  { count := 0, ranks := [], hits := hits_to_compute.map fun lev => (lev, []) }

/-- Body of one successful iteration of the while loop (metrics.py lines
41-58): mask the predictions, compute every example's filtered rank, extend
the rank and hit lists and add the batch size to `count`. -/
def processBatch (acc : Accum) (bt : EvalBatch) : Accum :=
  let newRanks := (List.finRange bt.b).map fun i =>
    rankOf (maskedPred bt i) (bt.e2 i)
  { count := acc.count + bt.b,
    ranks := acc.ranks ++ newRanks,
    hits := acc.hits.map fun p =>
      (p.1, p.2 ++ newRanks.map fun rk => if rk ≤ p.1 then (1 : ℚ) else 0) }

/-- Errors of the underlying ML framework on this path: the out-of-range
signal of an exhausted iterator, and any other framework error. -/
inductive TFError
  | outOfRange
  | internal
deriving DecidableEq

/-- session.run on the evaluation iterator: the next batch and the rest of
the stream, or tf.errors.OutOfRangeError once the iterator is exhausted. -/
def sessionRun : List EvalBatch → Except TFError (EvalBatch × List EvalBatch)
  | [] => Except.error TFError.outOfRange
  | bt :: rest => Except.ok (bt, rest)

/-- sessionRun succeeds exactly on a nonempty stream, consuming its head. -/
theorem sessionRun_ok_length {it : List EvalBatch} {bt : EvalBatch}
    {rest : List EvalBatch} (h : sessionRun it = Except.ok (bt, rest)) :
    rest.length < it.length := by
  cases it with
  | nil => simp [sessionRun] at h
  | cons x xs =>
    simp only [sessionRun, Except.ok.injEq, Prod.mk.injEq] at h
    cases h.2
    simp

/-- The while loop of ranking_and_hits (metrics.py lines 39-61): run the
session; on success process the batch and continue, on
tf.errors.OutOfRangeError set stopped = True (return the accumulator
normally); any other exception would propagate. -/
def evalLoop (acc : Accum) (it : List EvalBatch) : Except TFError Accum :=
  match h : sessionRun it with
  | Except.error TFError.outOfRange => Except.ok acc
  | Except.error TFError.internal => Except.error TFError.internal
  | Except.ok (bt, rest) => evalLoop (processBatch acc bt) rest
termination_by it.length
decreasing_by exact sessionRun_ok_length h

/-- Final metrics (metrics.py lines 66-88): every hits level averaged, then
mr = np.mean(ranks) and mrr = np.mean(1 / ranks), returned as
(mr, mrr, hits). -/
def finalizeMetrics (acc : Accum) : ℚ × ℚ × List (ℕ × ℚ) :=
  let hits := acc.hits.map fun p => (p.1, npMean p.2)
  let mr := npMean (acc.ranks.map fun rk => (rk : ℚ))
  let mrr := npMean (acc.ranks.map fun rk => 1 / (rk : ℚ))
  (mr, mrr, hits)

/-- ranking_and_hits (metrics.py lines 24-88): the evaluation loop over the
iterator stream followed by metric aggregation; an uncaught framework error
would propagate out. -/
def ranking_and_hits (hits_to_compute : List ℕ) (it : List EvalBatch) :
    Except TFError (ℚ × ℚ × List (ℕ × ℚ)) :=
  match evalLoop (initAccum hits_to_compute) it with
  | Except.ok acc => Except.ok (finalizeMetrics acc)
  | Except.error e => Except.error e

end Metrics

namespace LearnFramework

/-! ### LFramework.run_train dev evaluation logic (learn_framework.py lines
66-221) and LFramework.forward / make_full_batch (lines 246-303) -/

/-- The dev-tracking state of run_train: best_dev_metric starts at -np.inf
(modelled as bottom) and dev_metrics_history collects the hits_at_1 value of
every completed dev evaluation (learn_framework.py lines 74-79). -/
structure TrainState where
  best_dev_metric : WithBot ℚ
  dev_metrics_history : List ℚ
deriving DecidableEq

/-- best_dev_metric = -np.inf, dev_metrics_history = []. -/
def initTrainState : TrainState :=
  { best_dev_metric := ⊥, dev_metrics_history := [] }

/-- Python slice l[-k:] (the last k entries; the whole list for k = 0). -/
def lastSlice (l : List ℚ) (k : ℕ) : List ℚ :=
  if k = 0 then l else l.drop (l.length - k)

/-- Outcome of one dev evaluation: the updated state, whether
save_checkpoint(..., is_best=True) rewrote model_best.tar, and whether the
early-stopping break fired. -/
structure DevEvalOutcome where
  state : TrainState
  saved_best : Bool
  early_stop : Bool
deriving DecidableEq

/-- One dev evaluation of run_train (learn_framework.py lines 202-221): if
curr_metric > best_dev_metric the checkpoint is rewritten as best and
best_dev_metric updated; otherwise, once epoch_id >= num_wait_epochs, the run
breaks when curr_metric < np.mean(dev_metrics_history[-num_wait_epochs:]).
When no break fires, curr_metric is appended to dev_metrics_history. -/
def devEvalStep (num_wait_epochs epoch_id : ℕ) (s : TrainState)
    (curr_metric : ℚ) : DevEvalOutcome :=
  if (curr_metric : WithBot ℚ) > s.best_dev_metric then
    { state := { best_dev_metric := (curr_metric : WithBot ℚ),
                 dev_metrics_history := s.dev_metrics_history ++ [curr_metric] },
      saved_best := true, early_stop := false }
  else if num_wait_epochs ≤ epoch_id ∧
      curr_metric < npMean (lastSlice s.dev_metrics_history num_wait_epochs) then
    { state := s, saved_best := false, early_stop := true }
  else
    { state := { s with
                 dev_metrics_history := s.dev_metrics_history ++ [curr_metric] },
      saved_best := false, early_stop := false }

/-- Record of one executed dev evaluation: its hits_at_1 value, whether the
best checkpoint was rewritten, and best_dev_metric right after it. -/
structure EvalRec where
  curr : ℚ
  saved_best : Bool
  best_after : WithBot ℚ
deriving DecidableEq

/-- The sequence of dev evaluations a run_train performs, driven by the
(epoch_id, hits_at_1) pairs of the evaluations that come up; an early-stop
break ends the run. Returns the record of every executed evaluation. -/
def runDevEvals (num_wait_epochs : ℕ) (s : TrainState) :
    List (ℕ × ℚ) → List EvalRec
  | [] => []
  | (epoch_id, curr) :: rest =>
    let o := devEvalStep num_wait_epochs epoch_id s curr
    let rec0 : EvalRec :=
      { curr := curr, saved_best := o.saved_best,
        best_after := o.state.best_dev_metric }
    if o.early_stop then [rec0]
    else rec0 :: runDevEvals num_wait_epochs o.state rest

/-- make_full_batch (learn_framework.py lines 295-303), multi_answers=False as
called from forward: append (dummy_e, dummy_e, dummy_r) examples until the
mini batch has batch_size entries. -/
def make_full_batch (dummy_e dummy_r : ℕ) (mini_batch : List (ℕ × ℕ × ℕ))
    (batch_size : ℕ) : List (ℕ × ℕ × ℕ) :=
  mini_batch ++
    List.replicate (batch_size - mini_batch.length) (dummy_e, dummy_e, dummy_r)

/-- LFramework.forward (learn_framework.py lines 246-256): per mini batch of
batch_size examples, pad a short final batch to full size, predict, keep only
the first mini_batch_size prediction rows, and concatenate. -/
def forward (batch_size : ℕ) (dummy_e dummy_r : ℕ)
    (predict : List (ℕ × ℕ × ℕ) → List σ) (examples : List (ℕ × ℕ × ℕ)) :
    List σ :=
  ((listChunk batch_size examples).map fun mini_batch =>
    let mini_batch_size := mini_batch.length
    let full := if mini_batch.length < batch_size then
        make_full_batch dummy_e dummy_r mini_batch batch_size
      else mini_batch
    (predict full).take mini_batch_size).flatten

end LearnFramework

/-- Running maximum of a list of rationals over WithBot, starting from
-np.inf; the value best_dev_metric tracks across a run. -/
def botMax (l : List ℚ) : WithBot ℚ :=
  l.foldl (fun a c => max a ((c : ℚ) : WithBot ℚ)) ⊥

/-! ## Theorems settling the claims -/

/-- C2: in both the dense and the sparse AMSGrad update, every element of the
v_hat slot is assigned the elementwise maximum of its old value and the new
second-moment estimate (hence never decreases), and the variable update
divides by sqrt(v_hat) + epsilon, the monotone bound. -/
theorem C2_amsgrad_vhat_monotone_bound {ι : Type} [DecidableEq ι]
    (sqrt : ℚ → ℚ) (h : AMSGrad.HyperParams) (grad : ι → ℚ)
    (gvals : List (ι × ℚ)) (s : AMSGrad.SlotState ι) (i : ι) :
    (s.v_hat i ≤ (AMSGrad.apply_dense_shared sqrt h grad s).v_hat i ∧
      (AMSGrad.apply_dense_shared sqrt h grad s).v_hat i =
        max (s.v_hat i)
          (s.v i * h.beta2 + (grad i * grad i) * (1 - h.beta2)) ∧
      (AMSGrad.apply_dense_shared sqrt h grad s).var i =
        s.var i -
          AMSGrad.lr_t sqrt h * (s.m i * h.beta1 + grad i * (1 - h.beta1)) /
            (sqrt ((AMSGrad.apply_dense_shared sqrt h grad s).v_hat i) +
              h.epsilon)) ∧
    (s.v_hat i ≤ (AMSGrad.apply_sparse_shared sqrt h gvals s).v_hat i ∧
      (AMSGrad.apply_sparse_shared sqrt h gvals s).v_hat i =
        max (s.v_hat i)
          (AMSGrad.scatter_add (fun a => s.v a * h.beta2)
            (gvals.map fun p => ((p.1, (p.2 * p.2) * (1 - h.beta2)) : ι × ℚ)) i) ∧
      (AMSGrad.apply_sparse_shared sqrt h gvals s).var i =
        s.var i -
          AMSGrad.lr_t sqrt h * ((AMSGrad.apply_sparse_shared sqrt h gvals s).m i) /
            (sqrt ((AMSGrad.apply_sparse_shared sqrt h gvals s).v_hat i) +
              h.epsilon)) := by
  refine ⟨⟨?_, rfl, rfl⟩, ⟨?_, rfl, rfl⟩⟩
  · exact le_max_left _ _
  · exact le_max_left _ _

/-- C3 evidence: at gradient 1 from the all-zero state with beta1 = beta2 =
1/2, the dense update leaves 0 in the m and v slots, while the documented
Adam recurrences (and the sparse update, which the docstring says the dense
one is equivalent to) give 1/2; the dense slots drop the gradient
contribution. -/
theorem C3_dense_slots_drop_gradient :
    (AMSGrad.apply_dense_shared id ⟨1, 1/2, 1/2, 1/100, 1/2, 1/2⟩
        (fun _ => (1 : ℚ))
        ⟨fun _ => 0, fun _ => 0, fun _ => 0, fun _ => 0⟩ :
      AMSGrad.SlotState Unit).m () = 0 ∧
    (AMSGrad.apply_dense_shared id ⟨1, 1/2, 1/2, 1/100, 1/2, 1/2⟩
        (fun _ => (1 : ℚ))
        ⟨fun _ => 0, fun _ => 0, fun _ => 0, fun _ => 0⟩ :
      AMSGrad.SlotState Unit).v () = 0 ∧
    (1 / 2 : ℚ) * 0 + (1 - 1/2) * 1 = 1/2 ∧
    (0 : ℚ) ≠ 1/2 ∧
    (AMSGrad.apply_sparse_shared id ⟨1, 1/2, 1/2, 1/100, 1/2, 1/2⟩
        [((), (1 : ℚ))]
        ⟨fun _ => 0, fun _ => 0, fun _ => 0, fun _ => 0⟩ :
      AMSGrad.SlotState Unit).m () = 1/2 := by
  refine ⟨?_, ?_, by norm_num, by norm_num, ?_⟩
  · simp [AMSGrad.apply_dense_shared]
  · simp [AMSGrad.apply_dense_shared]
  · simp [AMSGrad.apply_sparse_shared, AMSGrad.scatter_add]
    norm_num

/-- C4: DistMult's per-fact scoring agrees with its all-entities scoring: row
i of forward_fact equals entry (i, e2 i) of forward, and both are the sigmoid
of the dimension-wise sum of E1 * R * E2 at the target entity. -/
theorem C4_distmult_forward_fact_agrees {b nE nR d : ℕ} (sigmoid : ℚ → ℚ)
    (kg : FactNetwork.KG nE nR d) (e1 : Fin b → Fin nE) (r : Fin b → Fin nR)
    (e2 : Fin b → Fin nE) (i : Fin b) :
    FactNetwork.DistMult.forward_fact sigmoid kg e1 r e2 i =
      FactNetwork.DistMult.forward sigmoid kg e1 r i (e2 i) ∧
    FactNetwork.DistMult.forward_fact sigmoid kg e1 r e2 i =
      sigmoid (∑ jd, kg.entity_embeddings (e1 i) jd *
        kg.relation_embeddings (r i) jd * kg.entity_embeddings (e2 i) jd) :=
  ⟨rfl, rfl⟩

/-- C9: the filtered-ranking masking of ranking_and_hits restores the target
entity's score to its original value (even when e2_multi flags the target
itself), leaves unflagged entries unchanged, and sends every other flagged
entry to -inf. -/
theorem C9_mask_preserves_target (bt : Metrics.EvalBatch) (i : Fin bt.b)
    (j : Fin bt.n) :
    Metrics.maskedPred bt i (bt.e2 i) = bt.pred i (bt.e2 i) ∧
    Metrics.maskedPred bt i j =
      (if j = bt.e2 i then bt.pred i j
       else if bt.e2_multi i j = 1 then ⊥ else bt.pred i j) := by
  constructor
  · simp [Metrics.maskedPred, Metrics.target_values]
  · by_cases hj : j = bt.e2 i
    · subst hj
      simp [Metrics.maskedPred, Metrics.target_values]
    · simp [Metrics.maskedPred, Metrics.maskKnown, Function.update_apply, hj]

/-- C10: TripleE.forward_fact always raises TypeError: it calls the
sub-models' forward_fact methods with the three arguments (e1, r, kg) where
four (e1, r, e2, kg) are required, so no score is ever returned. -/
theorem C10_triplee_forward_fact_raises_TypeError {τ : Type} [Inhabited τ]
    (conve_nn_forward_fact complex_nn_forward_fact distmult_nn_forward_fact :
      List τ → τ)
    (avg3 : τ → τ → τ → τ) (e1 r conve_kg : τ) (secondary_kgs : List τ) :
    FactNetwork.TripleE.forward_fact conve_nn_forward_fact
        complex_nn_forward_fact distmult_nn_forward_fact avg3 e1 r conve_kg
        secondary_kgs =
      Except.error FactNetwork.PyError.typeError := by
  simp only [FactNetwork.TripleE.forward_fact, FactNetwork.pyCallMethod,
    FactNetwork.ConvE.forward_fact_arity]
  rfl

/-- Unfolding of the evaluation loop on an exhausted iterator: the
OutOfRangeError is caught and the accumulator is returned normally. -/
theorem evalLoop_nil (acc : Metrics.Accum) :
    Metrics.evalLoop acc [] = Except.ok acc := by
  rw [Metrics.evalLoop]
  rfl

/-- Unfolding of the evaluation loop on a nonempty iterator: the head batch
is processed and the loop continues. -/
theorem evalLoop_cons (acc : Metrics.Accum) (bt : Metrics.EvalBatch)
    (rest : List Metrics.EvalBatch) :
    Metrics.evalLoop acc (bt :: rest) =
      Metrics.evalLoop (Metrics.processBatch acc bt) rest := by
  rw [Metrics.evalLoop]
  rfl

/-- The evaluation loop always returns normally, having folded the batch
processing over the entire iterator stream. -/
theorem evalLoop_eq_foldl (it : List Metrics.EvalBatch) :
    ∀ acc : Metrics.Accum,
      Metrics.evalLoop acc it =
        Except.ok (it.foldl Metrics.processBatch acc) := by
  induction it with
  | nil => intro acc; rw [evalLoop_nil]; rfl
  | cons bt rest ih =>
    intro acc
    rw [evalLoop_cons, ih]
    rfl

/-- Folding batch processing adds every batch's size to `count`. -/
theorem foldl_processBatch_count (it : List Metrics.EvalBatch) :
    ∀ acc : Metrics.Accum,
      (it.foldl Metrics.processBatch acc).count =
        acc.count + (it.map fun bt => bt.b).sum := by
  induction it with
  | nil => intro acc; simp
  | cons bt rest ih =>
    intro acc
    rw [List.foldl_cons, ih]
    simp [Metrics.processBatch]
    omega

/-- C5: ranking_and_hits terminates exactly when the iterator is exhausted —
it returns (mr, mrr, hits) normally, never propagating the out-of-range
error, and the accumulated count shows every batch of the stream was
processed. -/
theorem C5_ranking_and_hits_catches_out_of_range (hits_to_compute : List ℕ)
    (it : List Metrics.EvalBatch) :
    Metrics.ranking_and_hits hits_to_compute it =
      Except.ok (Metrics.finalizeMetrics
        (it.foldl Metrics.processBatch (Metrics.initAccum hits_to_compute))) ∧
    (it.foldl Metrics.processBatch
        (Metrics.initAccum hits_to_compute)).count =
      (it.map fun bt => bt.b).sum := by
  constructor
  · rw [Metrics.ranking_and_hits, evalLoop_eq_foldl]
  · rw [foldl_processBatch_count]
    simp [Metrics.initAccum]

/-- Flattening the consecutive chunks of a list (positive chunk size)
recovers the list. -/
theorem listChunkAux_flatten {α : Type} (k : ℕ) (hk : 0 < k) :
    ∀ (fuel : ℕ) (l : List α), l.length ≤ fuel →
      (listChunkAux k fuel l).flatten = l := by
  intro fuel
  induction fuel with
  | zero =>
    intro l hl
    have : l = [] := List.length_eq_zero.mp (Nat.le_zero.mp hl)
    subst this
    rfl
  | succ fuel ih =>
    intro l hl
    cases l with
    | nil => rfl
    | cons x xs =>
      rw [listChunkAux, List.flatten_cons, ih]
      · exact List.take_append_drop k (x :: xs)
      · rw [List.length_drop]
        simp only [List.length_cons] at hl ⊢
        omega

/-- listChunk with a positive chunk size partitions the list. -/
theorem listChunk_flatten {α : Type} (k : ℕ) (hk : 0 < k) (l : List α) :
    (listChunk k l).flatten = l :=
  listChunkAux_flatten k hk l.length l le_rfl

/-- C8: LFramework.forward pads a short final mini batch to full batch_size
with dummy examples and discards the padding predictions: the returned score
list has exactly one row per input example (for any predictor that returns
one row per batch entry), and a row-wise predictor makes it exactly the
per-example predictions in input order. -/
theorem C8_forward_one_row_per_example {σ : Type}
    (batch_size dummy_e dummy_r : ℕ) (examples : List (ℕ × ℕ × ℕ))
    (hbs : 0 < batch_size) :
    (∀ predict : List (ℕ × ℕ × ℕ) → List σ,
      (∀ batch, (predict batch).length = batch.length) →
      (LearnFramework.forward batch_size dummy_e dummy_r predict
          examples).length = examples.length) ∧
    (∀ f : (ℕ × ℕ × ℕ) → σ,
      LearnFramework.forward batch_size dummy_e dummy_r
          (fun batch => batch.map f) examples = examples.map f) := by
  constructor
  · intro predict hlen
    simp only [LearnFramework.forward]
    rw [List.length_flatten, List.map_map]
    have hcong : ∀ mini ∈ listChunk batch_size examples,
        (List.length ∘ fun mini_batch =>
          (predict (if mini_batch.length < batch_size then
              LearnFramework.make_full_batch dummy_e dummy_r mini_batch
                batch_size
            else mini_batch)).take mini_batch.length) mini =
        List.length mini := by
      intro mini _
      simp only [Function.comp_apply, List.length_take, hlen,
        LearnFramework.make_full_batch]
      split_ifs with hshort
      · rw [List.length_append, List.length_replicate]
        omega
      · omega
    rw [List.map_congr_left hcong, ← List.length_flatten,
      listChunk_flatten batch_size hbs]
  · intro f
    simp only [LearnFramework.forward]
    have hcong : ∀ mini ∈ listChunk batch_size examples,
        (fun mini_batch =>
          List.take mini_batch.length
            (List.map f
              (if mini_batch.length < batch_size then
                LearnFramework.make_full_batch dummy_e dummy_r mini_batch
                  batch_size
              else mini_batch))) mini =
        List.map f mini := by
      intro mini _
      show List.take mini.length
          (List.map f
            (if mini.length < batch_size then
              LearnFramework.make_full_batch dummy_e dummy_r mini batch_size
            else mini)) =
        List.map f mini
      split_ifs with hshort
      · rw [LearnFramework.make_full_batch, List.map_append,
          ← List.length_map mini f, List.take_left]
      · rw [← List.length_map mini f, List.take_length]
    rw [List.map_congr_left hcong, ← List.map_flatten,
      listChunk_flatten batch_size hbs]

/-- C8 witness: a single example with batch size two — the short batch is
padded, the padding row discarded, and the output is the one-row prediction
of the example. -/
theorem C8_forward_one_row_per_example_witness :
    (∀ predict : List (ℕ × ℕ × ℕ) → List ℕ,
      (∀ batch, (predict batch).length = batch.length) →
      (LearnFramework.forward 2 0 0 predict [(1, 2, 3)]).length =
        [((1 : ℕ), (2 : ℕ), (3 : ℕ))].length) ∧
    (∀ f : (ℕ × ℕ × ℕ) → ℕ,
      LearnFramework.forward 2 0 0 (fun batch => batch.map f) [(1, 2, 3)] =
        [((1 : ℕ), (2 : ℕ), (3 : ℕ))].map f) :=
  C8_forward_one_row_per_example 2 0 0 [(1, 2, 3)] (by decide)


namespace FactNetwork

/-- Sequential application distributes over list append. -/
theorem applySequential_append (ms ns : List CPGModule) (v : List ℚ) :
    applySequential (ms ++ ns) v = applySequential ns (applySequential ms v) :=
  List.foldl_append _ _ ms ns

/-- A linear module always outputs exactly out_features entries. -/
theorem linear_apply_length (inF outF : ℕ) (w : ℕ → ℕ → ℚ) (bias : ℕ → ℚ)
    (useB : Bool) (v : List ℚ) :
    ((CPGModule.linear inF outF w bias useB).apply v).length = outF := by
  simp [CPGModule.apply]

/-- The projection list built by the generator's constructor always ends in a
linear module onto flattened_output. -/
theorem buildProjections_concat (use_batch_norm use_bias : Bool) (dropout : ℚ)
    (lw : ℕ → ℕ → ℕ → ℚ) (lb : ℕ → ℕ → ℚ) (bng : ℕ → ℕ → ℚ → ℚ)
    (flattened_output : ℕ) :
    ∀ (rest : List ℕ) (k layer_input : ℕ),
      ∃ (ms : List CPGModule) (j li2 : ℕ),
        buildProjections use_batch_norm use_bias dropout lw lb bng
            flattened_output k layer_input rest =
          ms ++ [CPGModule.linear li2 flattened_output (lw j) (lb j) use_bias] := by
  intro rest
  induction rest with
  | nil =>
    intro k layer_input
    exact ⟨[], k, layer_input, rfl⟩
  | cons layer_output rest ih =>
    intro k layer_input
    obtain ⟨ms, j, li2, hms⟩ := ih (k + 1) layer_output
    refine ⟨[CPGModule.linear layer_input layer_output (lw k) (lb k) use_bias]
      ++ (if use_batch_norm then
            [CPGModule.batchNorm1d layer_output (bng k)] else [])
      ++ [CPGModule.relu, CPGModule.dropout dropout] ++ ms, j, li2, ?_⟩
    rw [buildProjections, hms]
    simp [List.append_assoc]

end FactNetwork

/-- Chunking the flattening of uniform-length rows (positive length) gives
back exactly those rows. -/
theorem listChunkAux_flatten_uniform {α : Type} (k : ℕ) (hk : 0 < k) :
    ∀ (rows : List (List α)) (fuel : ℕ), (∀ r ∈ rows, r.length = k) →
      rows.flatten.length ≤ fuel →
      listChunkAux k fuel rows.flatten = rows := by
  intro rows
  induction rows with
  | nil =>
    intro fuel _ _
    cases fuel <;> rfl
  | cons row rows ih =>
    intro fuel huni hfuel
    have hrowlen : row.length = k := huni row (List.mem_cons_self row rows)
    cases hr : row with
    | nil =>
      rw [hr] at hrowlen
      simp only [List.length_nil] at hrowlen
      omega
    | cons y ys =>
      subst hr
      cases fuel with
      | zero =>
        exfalso
        rw [List.flatten_cons, List.length_append] at hfuel
        simp only [List.length_cons] at hfuel
        omega
      | succ fuel =>
        have hflatcons : (y :: ys) ++ rows.flatten = y :: (ys ++ rows.flatten) :=
          rfl
        rw [List.flatten_cons, hflatcons, listChunkAux, ← hflatcons,
          List.take_left' hrowlen, List.drop_left' hrowlen]
        congr 1
        apply ih
        · intro r hrn
          exact huni r (List.mem_cons_of_mem _ hrn)
        · rw [List.flatten_cons, List.length_append] at hfuel
          omega

/-- listChunk inverts the flattening of uniform-length rows. -/
theorem listChunk_flatten_uniform {α : Type} (k : ℕ) (hk : 0 < k)
    (rows : List (List α)) (huni : ∀ r ∈ rows, r.length = k) :
    listChunk k rows.flatten = rows :=
  listChunkAux_flatten_uniform k hk rows rows.flatten.length huni le_rfl

/-- C6: ContextualParameterGenerator.forward is the internal sequential
network reshaped to [-1] + output_shape: flattened_output is the product of
the entries of output_shape, the final linear layer of the generator maps
onto that flattened size, and (for a nonzero product) the forward pass
yields exactly one generated block per input embedding — the per-row network
outputs in order — each with prod(output_shape) entries. -/
theorem C6_cpg_forward_reshape (ns shape : List ℕ) (p : ℚ) (bn ub : Bool)
    (lw : ℕ → ℕ → ℕ → ℚ) (lb : ℕ → ℕ → ℚ) (bng : ℕ → ℕ → ℚ → ℚ) :
    (FactNetwork.ContextualParameterGenerator.init ns shape p bn ub lw lb
        bng).flattened_output = shape.foldl (· * ·) 1 ∧
    (FactNetwork.ContextualParameterGenerator.init ns shape p bn ub lw lb
        bng).projections.getLast?.bind FactNetwork.CPGModule.outFeatures =
      some (shape.foldl (· * ·) 1) ∧
    (∀ v : List ℚ,
      (FactNetwork.applySequential
        (FactNetwork.ContextualParameterGenerator.init ns shape p bn ub lw lb
          bng).projections v).length = shape.foldl (· * ·) 1) ∧
    (0 < shape.foldl (· * ·) 1 → ∀ query_emb : List (List ℚ),
      (FactNetwork.ContextualParameterGenerator.init ns shape p bn ub lw lb
          bng).forward query_emb =
        query_emb.map (FactNetwork.applySequential
          (FactNetwork.ContextualParameterGenerator.init ns shape p bn ub lw
            lb bng).projections) ∧
      ((FactNetwork.ContextualParameterGenerator.init ns shape p bn ub lw lb
          bng).forward query_emb).length = query_emb.length ∧
      ∀ blk ∈ (FactNetwork.ContextualParameterGenerator.init ns shape p bn ub
          lw lb bng).forward query_emb,
        blk.length = shape.foldl (· * ·) 1) := by
  set g := FactNetwork.ContextualParameterGenerator.init ns shape p bn ub lw
    lb bng with hg
  obtain ⟨ms, j, li2, hms⟩ := FactNetwork.buildProjections_concat
    bn ub p lw lb bng (shape.foldl (· * ·) 1) ns.tail 0 (ns.headD 0)
  have hproj : g.projections =
      ms ++ [FactNetwork.CPGModule.linear li2 (shape.foldl (· * ·) 1)
        (lw j) (lb j) ub] := hms
  have hflat : g.flattened_output = shape.foldl (· * ·) 1 := rfl
  have hlen : ∀ v : List ℚ,
      (FactNetwork.applySequential g.projections v).length =
        shape.foldl (· * ·) 1 := by
    intro v
    rw [hproj, FactNetwork.applySequential_append]
    exact FactNetwork.linear_apply_length _ _ _ _ _ _
  refine ⟨hflat, ?_, hlen, ?_⟩
  · rw [hproj, List.getLast?_concat]
    rfl
  · intro hpos query_emb
    have huni : ∀ r ∈ query_emb.map (FactNetwork.applySequential
          g.projections),
        r.length = shape.foldl (· * ·) 1 := by
      intro r hr
      obtain ⟨v, _, hv⟩ := List.mem_map.mp hr
      rw [← hv, hlen v]
    have hforward : g.forward query_emb =
        query_emb.map (FactNetwork.applySequential g.projections) := by
      show FactNetwork.viewNegOne g.output_shape
          (query_emb.map (FactNetwork.applySequential g.projections)).flatten =
        query_emb.map (FactNetwork.applySequential g.projections)
      rw [FactNetwork.viewNegOne]
      exact listChunk_flatten_uniform _ hpos _ huni
    refine ⟨hforward, ?_, ?_⟩
    · rw [hforward, List.length_map]
    · intro blk hblk
      rw [hforward] at hblk
      exact huni blk hblk

/-- Appending one value to the tracked list takes a max with it. -/
theorem botMax_append_singleton (l : List ℚ) (c : ℚ) :
    botMax (l ++ [c]) = max (botMax l) ((c : ℚ) : WithBot ℚ) := by
  rw [botMax, botMax, List.foldl_append]
  rfl

/-- A foldl-max starting from `a` stays below `c` iff `a` and every list
element do. -/
theorem foldl_max_lt_iff (c : ℚ) : ∀ (l : List ℚ) (a : WithBot ℚ),
    (l.foldl (fun a x => max a ((x : ℚ) : WithBot ℚ)) a < (c : WithBot ℚ)) ↔
      (a < (c : WithBot ℚ) ∧ ∀ x ∈ l, x < c) := by
  intro l
  induction l with
  | nil =>
    intro a
    simp
  | cons y ys ih =>
    intro a
    rw [List.foldl_cons, ih]
    constructor
    · rintro ⟨hmax, hall⟩
      rw [max_lt_iff] at hmax
      refine ⟨hmax.1, fun x hx => ?_⟩
      rcases List.mem_cons.mp hx with hxy | hxm
      · subst hxy
        exact WithBot.coe_lt_coe.mp hmax.2
      · exact hall x hxm
    · rintro ⟨ha, hall⟩
      refine ⟨max_lt_iff.mpr ⟨ha, WithBot.coe_lt_coe.mpr
        (hall y (List.mem_cons_self _ _))⟩,
        fun x hx => hall x (List.mem_cons_of_mem _ hx)⟩

/-- botMax l is below c iff every element of l is. -/
theorem botMax_lt_iff (l : List ℚ) (c : ℚ) :
    botMax l < (c : WithBot ℚ) ↔ ∀ x ∈ l, x < c := by
  rw [botMax, foldl_max_lt_iff]
  simp [WithBot.bot_lt_coe]

/-- Invariant of the dev-evaluation sequence: starting from a state whose
best_dev_metric is the running maximum of the previously observed metrics,
every executed evaluation saves the best checkpoint exactly when its metric
strictly exceeds all previously observed ones, and afterwards
best_dev_metric is the running maximum of all metrics observed so far. -/
theorem runDevEvals_spec (nw : ℕ) :
    ∀ (evals : List (ℕ × ℚ)) (prev : List ℚ) (s : LearnFramework.TrainState),
      s.best_dev_metric = botMax prev →
      ∀ i, i < (LearnFramework.runDevEvals nw s evals).length →
        ((((LearnFramework.runDevEvals nw s evals).getD i
              ⟨0, false, ⊥⟩).saved_best = true) ↔
          ∀ x ∈ prev ++ (((LearnFramework.runDevEvals nw s evals).take i).map
              LearnFramework.EvalRec.curr),
            x < ((LearnFramework.runDevEvals nw s evals).getD i
              ⟨0, false, ⊥⟩).curr) ∧
        ((LearnFramework.runDevEvals nw s evals).getD i
            ⟨0, false, ⊥⟩).best_after =
          botMax (prev ++
            (((LearnFramework.runDevEvals nw s evals).take (i + 1)).map
              LearnFramework.EvalRec.curr)) := by
  intro evals
  induction evals with
  | nil =>
    intro prev s hs i hi
    simp [LearnFramework.runDevEvals] at hi
  | cons e rest ih =>
    obtain ⟨ep, cm⟩ := e
    intro prev s hs i hi
    by_cases hgt : s.best_dev_metric < ((cm : ℚ) : WithBot ℚ)
    · have hprevlt : ∀ x ∈ prev, x < cm := by
        rw [← botMax_lt_iff, ← hs]
        exact hgt
      have hmaxeq : botMax (prev ++ [cm]) = ((cm : ℚ) : WithBot ℚ) := by
        rw [botMax_append_singleton, ← hs]
        exact max_eq_right (le_of_lt hgt)
      have ho : LearnFramework.devEvalStep nw ep s cm =
          { state :=
              { best_dev_metric := ((cm : ℚ) : WithBot ℚ),
                dev_metrics_history := s.dev_metrics_history ++ [cm] },
            saved_best := true, early_stop := false } := by
        rw [LearnFramework.devEvalStep, if_pos hgt]
      have hcons : LearnFramework.runDevEvals nw s ((ep, cm) :: rest) =
          (⟨cm, true, ((cm : ℚ) : WithBot ℚ)⟩ : LearnFramework.EvalRec) ::
            LearnFramework.runDevEvals nw
              ⟨((cm : ℚ) : WithBot ℚ), s.dev_metrics_history ++ [cm]⟩ rest := by
        rw [LearnFramework.runDevEvals]
        simp [ho]
      rw [hcons] at hi ⊢
      cases i with
      | zero =>
        simp only [List.getD_cons_zero, List.take_succ_cons, List.take_zero,
          List.map_cons, List.map_nil, List.append_nil]
        exact ⟨⟨fun _ => hprevlt, fun _ => by trivial⟩, hmaxeq.symm⟩
      | succ j =>
        simp only [List.getD_cons_succ, List.take_succ_cons, List.map_cons,
          List.length_cons] at hi ⊢
        have H := ih (prev ++ [cm])
          ⟨((cm : ℚ) : WithBot ℚ), s.dev_metrics_history ++ [cm]⟩
          hmaxeq.symm j (by omega)
        simpa [List.append_assoc] using H
    · have hnotall : ¬ (∀ x ∈ prev, x < cm) := by
        rw [← botMax_lt_iff, ← hs]
        exact hgt
      have hmaxeq : botMax (prev ++ [cm]) = botMax prev := by
        rw [botMax_append_singleton, ← hs]
        exact max_eq_left (not_lt.mp hgt)
      by_cases hstop : nw ≤ ep ∧
          cm < npMean (LearnFramework.lastSlice s.dev_metrics_history nw)
      · have ho : LearnFramework.devEvalStep nw ep s cm =
            { state := s, saved_best := false, early_stop := true } := by
          rw [LearnFramework.devEvalStep, if_neg hgt, if_pos hstop]
        have hcons : LearnFramework.runDevEvals nw s ((ep, cm) :: rest) =
            [(⟨cm, false, s.best_dev_metric⟩ : LearnFramework.EvalRec)] := by
          rw [LearnFramework.runDevEvals]
          simp [ho]
        rw [hcons] at hi ⊢
        cases i with
        | zero =>
          simp only [List.getD_cons_zero, List.take_succ_cons, List.take_zero,
            List.map_cons, List.map_nil, List.append_nil]
          refine ⟨⟨fun hft => absurd hft (by simp),
            fun hall => absurd (by simpa using hall) hnotall⟩, ?_⟩
          exact hs.trans hmaxeq.symm
        | succ j =>
          simp only [List.length_cons, List.length_nil] at hi
          omega
      · have ho : LearnFramework.devEvalStep nw ep s cm =
            { state := { s with
                dev_metrics_history := s.dev_metrics_history ++ [cm] },
              saved_best := false, early_stop := false } := by
          rw [LearnFramework.devEvalStep, if_neg hgt, if_neg hstop]
        have hcons : LearnFramework.runDevEvals nw s ((ep, cm) :: rest) =
            (⟨cm, false, s.best_dev_metric⟩ : LearnFramework.EvalRec) ::
              LearnFramework.runDevEvals nw
                ⟨s.best_dev_metric, s.dev_metrics_history ++ [cm]⟩ rest := by
          rw [LearnFramework.runDevEvals]
          simp [ho]
        rw [hcons] at hi ⊢
        cases i with
        | zero =>
          simp only [List.getD_cons_zero, List.take_succ_cons, List.take_zero,
            List.map_cons, List.map_nil, List.append_nil]
          refine ⟨⟨fun hft => absurd hft (by simp),
            fun hall => absurd (by simpa using hall) hnotall⟩, ?_⟩
          exact hs.trans hmaxeq.symm
        | succ j =>
          simp only [List.getD_cons_succ, List.take_succ_cons, List.map_cons,
            List.length_cons] at hi ⊢
          have H := ih (prev ++ [cm])
            ⟨s.best_dev_metric, s.dev_metrics_history ++ [cm]⟩
            (hs.trans hmaxeq.symm) j (by omega)
          simpa [List.append_assoc] using H

/-- Bounded universal statements over the prefix of a record list, stated via
membership or via positional access, agree. -/
theorem forall_mem_take_map_iff (recs : List LearnFramework.EvalRec) (i : ℕ)
    (hi : i ≤ recs.length) (c : ℚ) :
    (∀ x ∈ (recs.take i).map LearnFramework.EvalRec.curr, x < c) ↔
      (∀ j, j < i →
        (recs.getD j ⟨0, false, ⊥⟩).curr < c) := by
  constructor
  · intro hall j hj
    have hjr : j < recs.length := lt_of_lt_of_le hj hi
    apply hall
    rw [List.mem_map]
    refine ⟨recs.getD j ⟨0, false, ⊥⟩, ?_, rfl⟩
    rw [List.getD_eq_getElem recs _ hjr]
    have hjt : j < (recs.take i).length := by
      rw [List.length_take]
      omega
    have : recs[j] = (recs.take i)[j] := (List.getElem_take recs).symm
    rw [this]
    exact List.getElem_mem hjt
  · intro hall x hx
    rw [List.mem_map] at hx
    obtain ⟨a, ha, rfl⟩ := hx
    rw [List.mem_iff_getElem] at ha
    obtain ⟨k, hk, hak⟩ := ha
    have hkt : k < i ⊓ recs.length := by
      rw [← List.length_take]
      exact hk
    have hki : k < i := lt_of_lt_of_le hkt inf_le_left
    have hkr : k < recs.length := lt_of_lt_of_le hkt inf_le_right
    have hval : a = recs.getD k ⟨0, false, ⊥⟩ := by
      rw [List.getD_eq_getElem recs _ hkr, ← List.getElem_take recs, hak]
    rw [hval]
    exact hall k hki

/-- C7: throughout run_train, model_best.tar is rewritten at a dev evaluation
exactly when the current dev hits_at_1 strictly exceeds every earlier dev
hits_at_1 of the run, and after every dev evaluation best_dev_metric is the
running maximum (started at -inf) of the dev hits_at_1 values observed so
far. -/
theorem C7_best_checkpoint_iff_strict_improvement (nw : ℕ)
    (evals : List (ℕ × ℚ)) (i : ℕ)
    (hi : i < (LearnFramework.runDevEvals nw LearnFramework.initTrainState
      evals).length) :
    ((((LearnFramework.runDevEvals nw LearnFramework.initTrainState
          evals).getD i ⟨0, false, ⊥⟩).saved_best = true) ↔
      ∀ j, j < i →
        ((LearnFramework.runDevEvals nw LearnFramework.initTrainState
            evals).getD j ⟨0, false, ⊥⟩).curr <
        ((LearnFramework.runDevEvals nw LearnFramework.initTrainState
            evals).getD i ⟨0, false, ⊥⟩).curr) ∧
    ((LearnFramework.runDevEvals nw LearnFramework.initTrainState
        evals).getD i ⟨0, false, ⊥⟩).best_after =
      botMax (((LearnFramework.runDevEvals nw LearnFramework.initTrainState
        evals).take (i + 1)).map LearnFramework.EvalRec.curr) := by
  have H := runDevEvals_spec nw evals [] LearnFramework.initTrainState rfl i hi
  rw [List.nil_append, List.nil_append] at H
  refine ⟨?_, H.2⟩
  rw [H.1, forall_mem_take_map_iff _ i (le_of_lt hi)]

/-- C7 witness: two dev evaluations with improving metrics — the second
strictly exceeds the first, so both rewrite the best checkpoint, and
best_dev_metric tracks the running maximum. -/
theorem C7_best_checkpoint_witness :
    ((((LearnFramework.runDevEvals 5 LearnFramework.initTrainState
          [(0, 1), (1, 2)]).getD 1 ⟨0, false, ⊥⟩).saved_best = true) ↔
      ∀ j, j < 1 →
        ((LearnFramework.runDevEvals 5 LearnFramework.initTrainState
            [(0, 1), (1, 2)]).getD j ⟨0, false, ⊥⟩).curr <
        ((LearnFramework.runDevEvals 5 LearnFramework.initTrainState
            [(0, 1), (1, 2)]).getD 1 ⟨0, false, ⊥⟩).curr) ∧
    ((LearnFramework.runDevEvals 5 LearnFramework.initTrainState
        [(0, 1), (1, 2)]).getD 1 ⟨0, false, ⊥⟩).best_after =
      botMax (((LearnFramework.runDevEvals 5 LearnFramework.initTrainState
        [(0, 1), (1, 2)]).take (1 + 1)).map LearnFramework.EvalRec.curr) :=
  C7_best_checkpoint_iff_strict_improvement 5 [(0, 1), (1, 2)] 1 (by decide)

/-- C1: in every CPG_ConvE pass (forward and forward_fact) with
cpg_conv_net set, the convolution parameters are conv_filter(R) and
conv_bias(R), generated from the relation embedding of the batch — the fixed
conv1 layer is immaterial; with cpg_fc_net set, the fully-connected
parameters are fc_weights(R) and fc_bias(R) — the fixed fc layer is
immaterial; and in each of the three CPG configurations the passes equal the
corresponding explicit generated-parameter pipelines. -/
theorem C1_cpg_conv_fc_generated_from_relation {τ : Type}
    (T : FactNetwork.TorchOps τ) (mdl : FactNetwork.CPG_ConvE τ)
    (kg : FactNetwork.KGView τ) (e1 r e2 : τ) :
    (mdl.cpg_conv_net ≠ none → ∀ c : τ → τ,
      FactNetwork.CPG_ConvE.forward T { mdl with conv1 := c } kg e1 r =
        FactNetwork.CPG_ConvE.forward T mdl kg e1 r ∧
      FactNetwork.CPG_ConvE.forward_fact T { mdl with conv1 := c } kg e1 r e2 =
        FactNetwork.CPG_ConvE.forward_fact T mdl kg e1 r e2) ∧
    (mdl.cpg_fc_net ≠ none → ∀ f : τ → τ,
      FactNetwork.CPG_ConvE.forward T { mdl with fc := f } kg e1 r =
        FactNetwork.CPG_ConvE.forward T mdl kg e1 r ∧
      FactNetwork.CPG_ConvE.forward_fact T { mdl with fc := f } kg e1 r e2 =
        FactNetwork.CPG_ConvE.forward_fact T mdl kg e1 r e2) ∧
    (mdl.cpg_conv_net ≠ none → mdl.cpg_fc_net ≠ none →
      FactNetwork.CPG_ConvE.forward T mdl kg e1 r =
        FactNetwork.CPG_ConvE.forwardCPGBoth T mdl kg e1 r ∧
      FactNetwork.CPG_ConvE.forward_fact T mdl kg e1 r e2 =
        FactNetwork.CPG_ConvE.forward_factCPGBoth T mdl kg e1 r e2) ∧
    (mdl.cpg_conv_net ≠ none → mdl.cpg_fc_net = none →
      FactNetwork.CPG_ConvE.forward T mdl kg e1 r =
        FactNetwork.CPG_ConvE.forwardCPGConvOnly T mdl kg e1 r ∧
      FactNetwork.CPG_ConvE.forward_fact T mdl kg e1 r e2 =
        FactNetwork.CPG_ConvE.forward_factCPGConvOnly T mdl kg e1 r e2) ∧
    (mdl.cpg_conv_net = none → mdl.cpg_fc_net ≠ none →
      FactNetwork.CPG_ConvE.forward T mdl kg e1 r =
        FactNetwork.CPG_ConvE.forwardCPGFcOnly T mdl kg e1 r ∧
      FactNetwork.CPG_ConvE.forward_fact T mdl kg e1 r e2 =
        FactNetwork.CPG_ConvE.forward_factCPGFcOnly T mdl kg e1 r e2) := by
  refine ⟨?_, ?_, ?_, ?_, ?_⟩
  · intro hconv c
    obtain ⟨lc, hc⟩ := Option.ne_none_iff_exists'.mp hconv
    constructor
    · simp [FactNetwork.CPG_ConvE.forward, hc]
    · simp [FactNetwork.CPG_ConvE.forward_fact, hc]
  · intro hfc f
    obtain ⟨lf, hf⟩ := Option.ne_none_iff_exists'.mp hfc
    constructor
    · simp [FactNetwork.CPG_ConvE.forward, hf]
    · simp [FactNetwork.CPG_ConvE.forward_fact, hf]
  · intro hconv hfc
    obtain ⟨lc, hc⟩ := Option.ne_none_iff_exists'.mp hconv
    obtain ⟨lf, hf⟩ := Option.ne_none_iff_exists'.mp hfc
    constructor
    · simp [FactNetwork.CPG_ConvE.forward,
        FactNetwork.CPG_ConvE.forwardCPGBoth, hc, hf]
    · simp [FactNetwork.CPG_ConvE.forward_fact,
        FactNetwork.CPG_ConvE.forward_factCPGBoth, hc, hf]
  · intro hconv hf
    obtain ⟨lc, hc⟩ := Option.ne_none_iff_exists'.mp hconv
    constructor
    · simp [FactNetwork.CPG_ConvE.forward,
        FactNetwork.CPG_ConvE.forwardCPGConvOnly, hc, hf]
    · simp [FactNetwork.CPG_ConvE.forward_fact,
        FactNetwork.CPG_ConvE.forward_factCPGConvOnly, hc, hf]
  · intro hc hfc
    obtain ⟨lf, hf⟩ := Option.ne_none_iff_exists'.mp hfc
    constructor
    · simp [FactNetwork.CPG_ConvE.forward,
        FactNetwork.CPG_ConvE.forwardCPGFcOnly, hc, hf]
    · simp [FactNetwork.CPG_ConvE.forward_fact,
        FactNetwork.CPG_ConvE.forward_factCPGFcOnly, hc, hf]
